import Mathlib

/-!
Verification of `password_security_checker.py`.

The file embeds the two core components of the repository as executable Lean
definitions and proves the specified properties about them:

* `calculate_password_strength` (source lines 27-90): the five-criterion
  strength scorer with its blocklist override and label thresholds;
* `check_pwned_api` (source lines 92-109): the k-anonymity breach lookup,
  including the SHA-1 hashing step, the range-request path, the record scan
  of the HTTP 200 response body, and the error handling.

Python-level behaviours that the code relies on are embedded explicitly:
`re.search(r'\d', ...)` matches any Unicode decimal digit (category Nd),
`str.split(':')`, `str.splitlines()`, `str.lower()`, and the `int()` builtin.
The network is abstracted as a function from the requested path to an HTTP
outcome; an uncaught Python exception is modelled as `Except.error`.
-/

/-! ## Unicode decimal digits (category Nd)

Python's `re.search(r'\d', s)` on a `str` matches exactly the characters
of Unicode category Nd (decimal digit), and the `int()` builtin likewise
accepts any Nd digit, with numeric value equal to the offset of the code
point within its run of ten.  Each entry `s` of `ndRanges` is the first
code point of such a run `s .. s+9` (ASCII, Arabic-Indic, Devanagari,
..., fullwidth, mathematical, Adlam, ..., segmented digits); the list is
the complete Nd table through Unicode 15.1 — the set only ever grows with
Unicode versions, and CPython's `unicodedata` tracks it.  The
mathematical block U+1D7CE-U+1D7FF is five consecutive runs of ten. -/

def ndRanges : List Nat :=
  [0x30, 0x660, 0x6F0, 0x7C0, 0x966, 0x9E6, 0xA66, 0xAE6, 0xB66, 0xBE6,
   0xC66, 0xCE6, 0xD66, 0xDE6, 0xE50, 0xED0, 0xF20, 0x1040, 0x1090, 0x17E0,
   0x1810, 0x1946, 0x19D0, 0x1A80, 0x1A90, 0x1B50, 0x1BB0, 0x1C40, 0x1C50,
   0xA620, 0xA8D0, 0xA900, 0xA9D0, 0xA9F0, 0xAA50, 0xABF0, 0xFF10,
   0x104A0, 0x10D30, 0x11066, 0x110F0, 0x11136, 0x111D0, 0x112F0, 0x11450,
   0x114D0, 0x11650, 0x116C0, 0x11730, 0x118E0, 0x11950, 0x11C50, 0x11D50,
   0x11DA0, 0x11F50, 0x16A60, 0x16AC0, 0x16B50,
   0x1D7CE, 0x1D7D8, 0x1D7E2, 0x1D7EC, 0x1D7F6,
   0x1E140, 0x1E2F0, 0x1E4F0, 0x1E950, 0x1FBF0]

/-- Decimal value of a code point within the digit runs, if any. -/
def ndLookup : List Nat → Nat → Option Nat
  | [], _ => none
  | s :: rest, n => if s ≤ n && n ≤ s + 9 then some (n - s) else ndLookup rest n

/-- Decimal-digit value of a character, following Unicode category Nd. -/
def ndVal (c : Char) : Option Nat := ndLookup ndRanges c.toNat

/-- The character class matched by Python's `re.search(r'\d', password)`. -/
def isNd (c : Char) : Bool := (ndVal c).isSome

/-! ## Python string primitives used by the source -/

/-- Whitespace stripped by `int()` around a numeric literal: the ASCII
controls TAB..CR, SPACE, NEL, and the Unicode space separators
(NBSP, OGHAM SPACE MARK, EN QUAD..HAIR SPACE, LINE/PARAGRAPH SEPARATOR,
NARROW NBSP, MEDIUM MATHEMATICAL SPACE, IDEOGRAPHIC SPACE); exactly the
set `int(c + "5") == 5` accepts. -/
def isPySpace (c : Char) : Bool :=
  c.toNat = 32 || (9 ≤ c.toNat && c.toNat ≤ 13) || c.toNat = 0x85 ||
    c.toNat = 0xA0 || c.toNat = 0x1680 ||
    (0x2000 ≤ c.toNat && c.toNat ≤ 0x200A) ||
    c.toNat = 0x2028 || c.toNat = 0x2029 || c.toNat = 0x202F ||
    c.toNat = 0x205F || c.toNat = 0x3000

/-- Strip leading and trailing whitespace, as `int()` does to its argument. -/
def pyStrip (cs : List Char) : List Char :=
  ((cs.dropWhile isPySpace).reverse.dropWhile isPySpace).reverse

/-- Digit loop of the `int()` builtin: decimal digits with single `_`
separators allowed between digits. -/
def pyIntGo : Nat → List Char → Option Nat
  | acc, [] => some acc
  | acc, c :: rest =>
    if c = '_' then
      match rest with
      | [] => none
      | d :: rest2 =>
        match ndVal d with
        | some v => pyIntGo (10 * acc + v) rest2
        | none => none
    else
      match ndVal c with
      | some v => pyIntGo (10 * acc + v) rest
      | none => none

/-- Unsigned part of the `int()` builtin: a nonempty digit string that must
start with a digit. -/
def pyIntCore : List Char → Option Nat
  | [] => none
  | c :: rest =>
    match ndVal c with
    | some v => pyIntGo v rest
    | none => none

/-- The Python `int()` builtin on a string: optional surrounding whitespace,
an optional single sign, then a nonempty decimal digit string.  `none`
models `int()` raising `ValueError`. -/
def pyInt (s : String) : Option Int :=
  match pyStrip s.toList with
  | '-' :: rest => Option.map (fun n => -(Int.ofNat n)) (pyIntCore rest)
  | '+' :: rest => Option.map Int.ofNat (pyIntCore rest)
  | t => Option.map Int.ofNat (pyIntCore t)

/-- Characterwise `str.lower()` restricted to the characters whose
lowercase image is ASCII: `A`-`Z` and U+212A KELVIN SIGN (which lowers to
`k`) are the only such characters in Unicode.  Every other character is
kept as is; Python may lower it to a different non-ASCII character (or,
for U+0130, to a two-character sequence containing U+0307), but since the
blocklist entries are pure ASCII, a string containing any such character
fails the comparison of source line 65 under both mappings, so the
membership test below agrees with Python's on every input. -/
def pyLowerChar (c : Char) : Char :=
  if 65 ≤ c.toNat && c.toNat ≤ 90 then Char.ofNat (c.toNat + 32)
  else if c.toNat = 0x212A then 'k'
  else c

/-- Python `str.lower()`. -/
def pyLower (s : String) : String := String.mk (s.toList.map pyLowerChar)

/-- Line-break characters recognised by Python `str.splitlines()`. -/
def isLineBreak (c : Char) : Bool :=
  c.toNat = 10 || c.toNat = 13 || c.toNat = 0x0b || c.toNat = 0x0c ||
    c.toNat = 0x1c || c.toNat = 0x1d || c.toNat = 0x1e || c.toNat = 0x85 ||
    c.toNat = 0x2028 || c.toNat = 0x2029

/-- Worker for `pySplitlines`; `acc` holds the current line reversed. -/
def splitlinesAux : List Char → List Char → List String
  | acc, [] => if acc.isEmpty then [] else [String.mk acc.reverse]
  | acc, [c] =>
    if isLineBreak c then [String.mk acc.reverse]
    else [String.mk (c :: acc).reverse]
  | acc, c :: d :: rest =>
    if c.toNat = 13 && d.toNat = 10 then
      String.mk acc.reverse :: splitlinesAux [] rest
    else if isLineBreak c then
      String.mk acc.reverse :: splitlinesAux [] (d :: rest)
    else splitlinesAux (c :: acc) (d :: rest)

/-- Python `str.splitlines()`: no trailing empty line, `\r\n` counts once. -/
def pySplitlines (s : String) : List String := splitlinesAux [] s.toList

/-- Worker for `splitChar`; `acc` holds the current field reversed. -/
def splitCharAux (sep : Char) : List Char → List Char → List String
  | acc, [] => [String.mk acc.reverse]
  | acc, c :: rest =>
    if c = sep then String.mk acc.reverse :: splitCharAux sep [] rest
    else splitCharAux sep (c :: acc) rest

/-- Python `str.split(sep)` for a one-character separator, as used by
`line.split(':')` on source line 103: every occurrence splits, empty
fields are kept. -/
def splitChar (sep : Char) (s : String) : List String :=
  splitCharAux sep [] s.toList

/-! ## StrengthAnalyzer (source lines 16-90) -/

/-- Result record of `calculate_password_strength` (source lines 83-90). -/
structure PasswordAnalysis where
  score : Nat
  max_score : Nat
  strength : String
  color : String
  feedback : List String
  length : Nat
deriving Repr, DecidableEq

/-- The static blocklist built by `load_common_passwords` (source
lines 16-25). -/
def common_passwords : List String :=
  ["123456", "password", "12345678", "qwerty", "123456789",
   "12345", "1234", "111111", "1234567", "dragon",
   "123123", "baseball", "abc123", "football", "monkey",
   "letmein", "shadow", "master", "666666", "qwertyuiop",
   "123321", "mustang", "1234567890", "michael", "superman"]

/-- The special-character class of source line 58 (braces written with
hex escapes). -/
def special_chars : List Char := "!@#$%^&*(),.?\":\x7b\x7d|<>".toList

/-- The ASCII class `[a-z]` of source line 50. -/
def isLowerChar (c : Char) : Bool := 97 ≤ c.toNat && c.toNat ≤ 122

/-- The ASCII class `[A-Z]` of source line 50. -/
def isUpperChar (c : Char) : Bool := 65 ≤ c.toNat && c.toNat ≤ 90

/-- The ASCII class `[a-zA-Z]` of source line 53. -/
def isLetterChar (c : Char) : Bool := isLowerChar c || isUpperChar c

/-- Membership in the special-character class of source line 58. -/
def isSpecialChar (c : Char) : Bool := special_chars.contains c

/-- Truth of `re.search(r'\d', password)` (source line 43). -/
def hasDigit (p : String) : Bool := p.toList.any isNd

/-- Truth of `re.search(r'[a-z]', password)` (source line 50). -/
def hasLower (p : String) : Bool := p.toList.any isLowerChar

/-- Truth of `re.search(r'[A-Z]', password)` (source line 50). -/
def hasUpper (p : String) : Bool := p.toList.any isUpperChar

/-- Truth of `re.search(r'[a-zA-Z]', password)` (source line 53). -/
def hasLetter (p : String) : Bool := p.toList.any isLetterChar

/-- Truth of the special-character search of source line 58. -/
def hasSpecial (p : String) : Bool := p.toList.any isSpecialChar

/-- Points from criterion 1, length (source lines 33-40). -/
def lengthPoints (p : String) : Nat :=
  if 12 ≤ p.length then 3 else if 8 ≤ p.length then 2 else 0

/-- Feedback from criterion 1 (source lines 33-40). -/
def lengthFeedback (p : String) : List String :=
  if 12 ≤ p.length then ["✓ Длина пароля отличная (12+ символов)"]
  else if 8 ≤ p.length then ["✓ Длина пароля хорошая (8+ символов)"]
  else ["✗ Слишком короткий пароль (рекомендуется 8+ символов)"]

/-- Points from criterion 2, digits (source lines 43-47). -/
def digitPoints (p : String) : Nat := if hasDigit p then 1 else 0

/-- Feedback from criterion 2 (source lines 43-47). -/
def digitFeedback (p : String) : List String :=
  if hasDigit p then ["✓ Содержит цифры"]
  else ["✗ Добавьте цифры для увеличения сложности"]

/-- Points from criterion 3, case mixing (source lines 50-55); a
letter-free password adds nothing. -/
def casePoints (p : String) : Nat :=
  if hasLower p && hasUpper p then 2 else if hasLetter p then 1 else 0

/-- Feedback from criterion 3 (source lines 50-55); a letter-free password
adds no finding. -/
def caseFeedback (p : String) : List String :=
  if hasLower p && hasUpper p then ["✓ Использует смешанный регистр"]
  else if hasLetter p then ["✗ Добавьте буквы в разных регистрах"]
  else []

/-- Points from criterion 4, special characters (source lines 58-62). -/
def specialPoints (p : String) : Nat := if hasSpecial p then 2 else 0

/-- Feedback from criterion 4 (source lines 58-62). -/
def specialFeedback (p : String) : List String :=
  if hasSpecial p then ["✓ Содержит специальные символы"]
  else ["✗ Добавьте специальные символы (!@#$ и т.д.)"]

/-- The blocklist test `password.lower() in self.common_passwords` of
source line 65. -/
def isCommon (p : String) : Bool := common_passwords.contains (pyLower p)

/-- The blocklist finding appended on source line 67. -/
def commonFinding : String := "✗ Пароль находится в списке самых слабых паролей!"

/-- Label from the final score (source lines 70-81). -/
def strengthOf (score : Nat) : String :=
  if 8 ≤ score then "Отличный"
  else if 5 ≤ score then "Хороший"
  else if 3 ≤ score then "Средний"
  else "Слабый"

/-- ANSI colour from the final score (source lines 70-81). -/
def colorOf (score : Nat) : String :=
  if 8 ≤ score then "\x1b[92m"
  else if 5 ≤ score then "\x1b[93m"
  else if 3 ≤ score then "\x1b[33m"
  else "\x1b[91m"

/-- The scorer `calculate_password_strength` (source lines 27-90).  The
five criteria accumulate `score` and `feedback` in evaluation order; the
blocklist override then resets the score to 0 and appends its own finding
after the others. -/
def calculate_password_strength (password : String) : PasswordAnalysis :=
  let base := lengthPoints password + digitPoints password +
    casePoints password + specialPoints password
  let score := if isCommon password then 0 else base
  let feedback := lengthFeedback password ++ digitFeedback password ++
    caseFeedback password ++ specialFeedback password ++
    (if isCommon password then [commonFinding] else [])
  PasswordAnalysis.mk score 10 (strengthOf score) (colorOf score) feedback
    password.length

/-! ## SHA-1 over the UTF-8 encoding (source line 96)

`hashlib.sha1(password.encode('utf-8')).hexdigest().upper()` is embedded as
a pure function on `Nat` byte lists, with 32-bit words represented as
naturals reduced modulo `2 ^ 32`. -/

/-- Reduce a natural to a 32-bit word. -/
def w32 (n : Nat) : Nat := n % 4294967296

/-- Rotate a 32-bit word left by `s` bits. -/
def rotl (s n : Nat) : Nat := (w32 (n <<< s)) ||| (n >>> (32 - s))

/-- UTF-8 encoding of one scalar value, as `str.encode('utf-8')` produces. -/
def utf8Bytes (c : Char) : List Nat :=
  let n := c.toNat
  if n < 128 then [n]
  else if n < 2048 then [192 ||| (n >>> 6), 128 ||| (n &&& 63)]
  else if n < 65536 then
    [224 ||| (n >>> 12), 128 ||| ((n >>> 6) &&& 63), 128 ||| (n &&& 63)]
  else
    [240 ||| (n >>> 18), 128 ||| ((n >>> 12) &&& 63),
     128 ||| ((n >>> 6) &&& 63), 128 ||| (n &&& 63)]

/-- Concatenation of the images of `f`, used for byte and hex flattening. -/
def catMap (f : α → List β) : List α → List β
  | [] => []
  | a :: l => f a ++ catMap f l

/-- Big-endian byte rendering of `n` in exactly `k` bytes. -/
def toBytesBE : Nat → Nat → List Nat
  | 0, _ => []
  | k + 1, n => toBytesBE k (n >>> 8) ++ [n % 256]

/-- SHA-1 message padding: `0x80`, zeros to 56 mod 64, 64-bit bit length. -/
def sha1Pad (msg : List Nat) : List Nat :=
  msg ++ [128] ++ List.replicate ((119 - msg.length % 64) % 64) 0 ++
    toBytesBE 8 (8 * msg.length)

/-- Split a padded message into 64-byte chunks. -/
def toChunks (bs : List Nat) : List (List Nat) :=
  (List.range (bs.length / 64)).map (fun i => (bs.drop (64 * i)).take 64)

/-- The sixteen initial 32-bit words of a chunk, big-endian. -/
def chunkWords (chunk : List Nat) : List Nat :=
  (List.range 16).map fun i =>
    ((chunk.getD (4 * i) 0) <<< 24) ||| ((chunk.getD (4 * i + 1) 0) <<< 16) |||
      ((chunk.getD (4 * i + 2) 0) <<< 8) ||| (chunk.getD (4 * i + 3) 0)

/-- Extend the word schedule by `k` further words. -/
def extendWords : Nat → List Nat → List Nat
  | 0, ws => ws
  | k + 1, ws =>
    let t := rotl 1 ((ws.getD (ws.length - 3) 0) ^^^ (ws.getD (ws.length - 8) 0) ^^^
      (ws.getD (ws.length - 14) 0) ^^^ (ws.getD (ws.length - 16) 0))
    extendWords k (ws ++ [t])

/-- Round function of SHA-1, by round index. -/
def sha1F (i b c d : Nat) : Nat :=
  if i < 20 then (b &&& c) ||| ((b ^^^ 4294967295) &&& d)
  else if i < 40 then b ^^^ c ^^^ d
  else if i < 60 then (b &&& c) ||| (b &&& d) ||| (c &&& d)
  else b ^^^ c ^^^ d

/-- Round constant of SHA-1, by round index. -/
def sha1K (i : Nat) : Nat :=
  if i < 20 then 1518500249 else if i < 40 then 1859775393
  else if i < 60 then 2400959708 else 3395469782

/-- One SHA-1 round on the five-word state. -/
def sha1Round (st : Nat × Nat × Nat × Nat × Nat) (iw : Nat × Nat) :
    Nat × Nat × Nat × Nat × Nat :=
  match st, iw with
  | (a, b, c, d, e), (i, wi) =>
    (w32 (rotl 5 a + sha1F i b c d + e + sha1K i + wi), a, rotl 30 b, c, d)

/-- Compress one 64-byte chunk into the running digest state. -/
def processChunk (h : Nat × Nat × Nat × Nat × Nat) (chunk : List Nat) :
    Nat × Nat × Nat × Nat × Nat :=
  match h with
  | (h0, h1, h2, h3, h4) =>
    match ((List.range 80).zip (extendWords 64 (chunkWords chunk))).foldl
        sha1Round (h0, h1, h2, h3, h4) with
    | (a, b, c, d, e) =>
      (w32 (h0 + a), w32 (h1 + b), w32 (h2 + c), w32 (h3 + d), w32 (h4 + e))

/-- Initial SHA-1 digest state. -/
def sha1Init : Nat × Nat × Nat × Nat × Nat :=
  (1732584193, 4023233417, 2562383102, 271733878, 3285377520)

/-- The 20-byte SHA-1 digest of a byte list. -/
def sha1Bytes (msg : List Nat) : List Nat :=
  match (toChunks (sha1Pad msg)).foldl processChunk sha1Init with
  | (a, b, c, d, e) =>
    toBytesBE 4 a ++ toBytesBE 4 b ++ toBytesBE 4 c ++ toBytesBE 4 d ++
      toBytesBE 4 e

/-- The sixteen uppercase hexadecimal digits. -/
def hexChars : List Char :=
  ['0', '1', '2', '3', '4', '5', '6', '7', '8', '9', 'A', 'B', 'C', 'D', 'E', 'F']

/-- Uppercase hexadecimal digit of `n % 16`. -/
def hexDigit (n : Nat) : Char := hexChars.getD (n % 16) '0'

/-- Two uppercase hexadecimal digits of a byte. -/
def byteHex (b : Nat) : List Char := [hexDigit (b / 16), hexDigit (b % 16)]

/-- The 40-character uppercase hexadecimal SHA-1 digest of the UTF-8
encoding of `s`: `hashlib.sha1(s.encode('utf-8')).hexdigest().upper()`
(source line 96). -/
def sha1HexUpper (s : String) : String :=
  String.mk (catMap byteHex (sha1Bytes (catMap utf8Bytes s.toList)))

/-! ## BreachClient `check_pwned_api` (source lines 92-109) -/

/-- First `n` characters of a string, Python slicing `s[:n]`. -/
def strTake (s : String) (n : Nat) : String := String.mk (s.toList.take n)

/-- All but the first `n` characters of a string, Python slicing `s[n:]`. -/
def strDrop (s : String) (n : Nat) : String := String.mk (s.toList.drop n)

/-- The five-character hash head `sha1_hash[:5]` (source line 97). -/
def hashPfx (password : String) : String := strTake (sha1HexUpper password) 5

/-- The 35-character hash tail `sha1_hash[5:]` (source line 98). -/
def hashSfx (password : String) : String := strDrop (sha1HexUpper password) 5

/-- The range-endpoint base `self.api_url` (source line 14). -/
def api_url : String := "https://api.pwnedpasswords.com/range/"

/-- The URL `f"{self.api_url}{sha1_hash[:5]}"` requested on source
line 101. -/
def requestPath (password : String) : String := api_url ++ hashPfx password

/-- Outcome of `requests.get`: a response carrying `status_code` and
`text`, or a raised `requests.RequestException` (connection error or
timeout). -/
inductive HttpOutcome where
  | success (status : Nat) (text : String)
  | requestError
deriving Repr, DecidableEq

/-- The record scan of source lines 103-106:
`hashes = (line.split(':') for line in response.text.splitlines())` and
`for h, count in hashes: if h == suffix: return True, int(count)`.
A line that does not split into exactly two fields fails tuple unpacking
with `ValueError`, and a matching line whose count `int()` rejects raises
`ValueError`; neither is caught by the `except` clause, which is modelled
as `Except.error ()`. -/
def scanHashes (sfx : String) : List String → Except Unit (Bool × Int)
  | [] => Except.ok (false, 0)
  | line :: rest =>
    match splitChar ':' line with
    | [h, count] =>
      if h = sfx then
        match pyInt count with
        | some c => Except.ok (true, c)
        | none => Except.error ()
      else scanHashes sfx rest
    | _ => Except.error ()

/-- The breach lookup `check_pwned_api` (source lines 92-109).  The
network is a function from the requested URL to an `HttpOutcome`;
`requests.RequestException` is caught and yields `(False, -1)`
(source lines 108-109); a non-200 status falls through to
`return False, 0` (source line 107); an uncaught parse exception
is `Except.error ()`. -/
def check_pwned_api (password : String) (transport : String → HttpOutcome) :
    Except Unit (Bool × Int) :=
  match transport (requestPath password) with
  | HttpOutcome.requestError => Except.ok (false, -1)
  | HttpOutcome.success status text =>
    if status = 200 then scanHashes (hashSfx password) (pySplitlines text)
    else Except.ok (false, 0)

/-! ## Decidable body-shape predicates used in the statements -/

/-- An ASCII decimal digit `0`-`9`. -/
def isDigitChar (c : Char) : Bool := 48 ≤ c.toNat && c.toNat ≤ 57

/-- A response line of the documented record shape
`<35-hex-char-suffix>:<decimal-count>`. -/
def wellFormedRecord (line : String) : Bool :=
  match splitChar ':' line with
  | [h, count] =>
    h.length == 35 && h.toList.all (fun ch => hexChars.contains ch) &&
      !count.toList.isEmpty && count.toList.all isDigitChar
  | _ => false

/-- Some response line is a two-field record whose first field equals
`sfx`. -/
def hasMatchRecord (sfx : String) (lines : List String) : Bool :=
  lines.any fun line =>
    match splitChar ':' line with
    | [h, _] => h == sfx
    | _ => false

/-- The record scan of `check_pwned_api` meets an unparsable record: a
line without exactly one colon, or a matching record whose count field
`int()` rejects, before any successful match. -/
def scanAborts (sfx : String) : List String → Bool
  | [] => false
  | line :: rest =>
    match splitChar ':' line with
    | [h, count] =>
      if h = sfx then (pyInt count).isNone else scanAborts sfx rest
    | _ => true

/-- Every two-field record in the body has a count field consisting only
of decimal digits. -/
def countFieldsDigits (text : String) : Bool :=
  (pySplitlines text).all fun line =>
    match splitChar ':' line with
    | [_, count] => count.toList.all isDigitChar
    | _ => true

set_option maxRecDepth 100000

/-! ## Bounds on the four positive criteria -/

theorem lengthPoints_le (p : String) : lengthPoints p ≤ 3 := by
  unfold lengthPoints
  split
  · omega
  · split <;> omega

theorem digitPoints_le (p : String) : digitPoints p ≤ 1 := by
  unfold digitPoints
  split <;> omega

theorem casePoints_le (p : String) : casePoints p ≤ 2 := by
  unfold casePoints
  split
  · omega
  · split <;> omega

theorem specialPoints_le (p : String) : specialPoints p ≤ 2 := by
  unfold specialPoints
  split <;> omega

/-- Claim C8: for every input string, the strength label returned by
`calculate_password_strength` is determined from the final score by exactly
the thresholds: score ≥ 8 gives Отличный (Excellent), otherwise score ≥ 5
gives Хороший (Good), otherwise score ≥ 3 gives Средний (Medium), otherwise
Слабый (Weak). -/
theorem C8_label_thresholds (p : String) :
    (calculate_password_strength p).strength =
      (if 8 ≤ (calculate_password_strength p).score then "Отличный"
       else if 5 ≤ (calculate_password_strength p).score then "Хороший"
       else if 3 ≤ (calculate_password_strength p).score then "Средний"
       else "Слабый") := rfl

/-- Claim C9: for every input string the score returned by
`calculate_password_strength` is at most 8 (the maximum attainable sum
3+1+2+2 of the four positive criteria) and at least 0, even though the
result carries `max_score = 10`; no input attains score 9 or 10. -/
theorem C9_score_bounds (p : String) :
    (calculate_password_strength p).score ≤ 8 ∧
    0 ≤ (calculate_password_strength p).score ∧
    (calculate_password_strength p).max_score = 10 ∧
    (calculate_password_strength p).score ≠ 9 ∧
    (calculate_password_strength p).score ≠ 10 := by
  have h1 := lengthPoints_le p
  have h2 := digitPoints_le p
  have h3 := casePoints_le p
  have h4 := specialPoints_le p
  have hs : (calculate_password_strength p).score ≤ 8 := by
    simp only [calculate_password_strength]
    split <;> omega
  exact ⟨hs, Nat.zero_le _, rfl, by omega, by omega⟩

/-- Claim C3: for every password whose lowercased form is a blocklist
entry, `calculate_password_strength` returns score 0 regardless of the
points the other four criteria earned, and the dedicated blocklist finding
is appended after the findings of those criteria, which remain in the
list. -/
theorem C3_blocklist_override (p : String) (h : isCommon p = true) :
    (calculate_password_strength p).score = 0 ∧
    (calculate_password_strength p).feedback =
      lengthFeedback p ++ digitFeedback p ++ caseFeedback p ++
        specialFeedback p ++ [commonFinding] := by
  simp [calculate_password_strength, h]

/-- Witness for C3 at the concrete password "PassWord", which lowercases
to the blocklist entry "password". -/
theorem C3_blocklist_override_witness :
    isCommon "PassWord" = true ∧
    (calculate_password_strength "PassWord").score = 0 ∧
    (calculate_password_strength "PassWord").feedback =
      lengthFeedback "PassWord" ++ digitFeedback "PassWord" ++
        caseFeedback "PassWord" ++ specialFeedback "PassWord" ++
        [commonFinding] :=
  ⟨by decide, C3_blocklist_override "PassWord" (by decide)⟩

/-- Counterexample to claim C1 as stated: the password "Tr0ub4dor&3XQ!"
(14 characters, mixed case, digit, special character, not blocklisted)
yields score 8, not the claimed 10; the label is still Отличный
(Excellent). -/
theorem C1_counterexample :
    (calculate_password_strength "Tr0ub4dor&3XQ!").score = 8 ∧
    (calculate_password_strength "Tr0ub4dor&3XQ!").score ≠ 10 ∧
    (calculate_password_strength "Tr0ub4dor&3XQ!").strength = "Отличный" :=
  ⟨by decide, by decide, by decide⟩

/-- Claim C1 as amended: for every password of length at least 12 that
contains an uppercase letter, a lowercase letter, a decimal digit and a
special character, and whose lowercased form is not blocklisted,
`calculate_password_strength` returns score 8 (the maximum attainable,
reported out of `max_score = 10`) and the Отличный (Excellent) label. -/
theorem C1_full_marks (p : String)
    (hlen : 12 ≤ p.length)
    (hdig : hasDigit p = true)
    (hlow : hasLower p = true)
    (hupp : hasUpper p = true)
    (hspec : hasSpecial p = true)
    (hbl : isCommon p = false) :
    (calculate_password_strength p).score = 8 ∧
    (calculate_password_strength p).strength = "Отличный" := by
  have hbase : lengthPoints p + digitPoints p + casePoints p + specialPoints p = 8 := by
    unfold lengthPoints digitPoints casePoints specialPoints
    rw [if_pos hlen, if_pos hdig, if_pos hspec, if_pos (by simp [hlow, hupp])]
  constructor
  · simp [calculate_password_strength, hbl, hbase]
  · simp [calculate_password_strength, hbl, hbase, strengthOf]

/-- Witness for the amended C1 at the concrete password
"Tr0ub4dor&3XQ!". -/
theorem C1_full_marks_witness :
    (calculate_password_strength "Tr0ub4dor&3XQ!").score = 8 ∧
    (calculate_password_strength "Tr0ub4dor&3XQ!").strength = "Отличный" :=
  C1_full_marks "Tr0ub4dor&3XQ!" (by decide) (by decide) (by decide)
    (by decide) (by decide) (by decide)

/-! ## Facts about the embedded `int()` builtin -/

theorem ndVal_of_ascii_digit (c : Char) (h1 : 48 ≤ c.toNat) (h2 : c.toNat ≤ 57) :
    ndVal c = some (c.toNat - 48) := by
  have hcond : (48 ≤ c.toNat && c.toNat ≤ 48 + 9) = true := by
    simp only [Bool.and_eq_true, decide_eq_true_eq]
    omega
  unfold ndVal ndRanges
  rw [ndLookup, hcond]
  simp

theorem dropWhile_eq_self_of_neg (p : Char → Bool) (l : List Char)
    (h : ∀ c ∈ l, p c = false) : l.dropWhile p = l := by
  cases l with
  | nil => rfl
  | cons a l => simp [List.dropWhile_cons, h a (by simp)]

theorem isPySpace_of_digit (c : Char) (h1 : 48 ≤ c.toNat) (h2 : c.toNat ≤ 57) :
    isPySpace c = false := by
  rw [Bool.eq_false_iff]
  intro hsp
  unfold isPySpace at hsp
  simp only [Bool.or_eq_true, Bool.and_eq_true, decide_eq_true_eq] at hsp
  omega

theorem pyStrip_of_digits (cs : List Char)
    (h : ∀ c ∈ cs, isDigitChar c = true) : pyStrip cs = cs := by
  have hsp : ∀ c ∈ cs, isPySpace c = false := by
    intro c hc
    have := h c hc
    simp only [isDigitChar, Bool.and_eq_true, decide_eq_true_eq] at this
    exact isPySpace_of_digit c this.1 this.2
  unfold pyStrip
  rw [dropWhile_eq_self_of_neg _ _ hsp,
    dropWhile_eq_self_of_neg _ _ (fun c hc => hsp c (List.mem_reverse.mp hc)),
    List.reverse_reverse]

theorem pyIntGo_of_digits (cs : List Char)
    (h : ∀ c ∈ cs, isDigitChar c = true) (acc : Nat) :
    ∃ n, pyIntGo acc cs = some n := by
  induction cs generalizing acc with
  | nil => exact ⟨acc, rfl⟩
  | cons c rest ih =>
    have hc := h c (by simp)
    simp only [isDigitChar, Bool.and_eq_true, decide_eq_true_eq] at hc
    have hund : ¬(c = '_') := by
      intro he
      rw [he] at hc
      exact absurd hc (by decide)
    unfold pyIntGo
    rw [if_neg hund, ndVal_of_ascii_digit c hc.1 hc.2]
    exact ih (fun x hx => h x (by simp [hx])) _

theorem pyIntCore_of_digits (c : Char) (rest : List Char)
    (h : ∀ x ∈ c :: rest, isDigitChar x = true) :
    ∃ n, pyIntCore (c :: rest) = some n := by
  have hc := h c (by simp)
  simp only [isDigitChar, Bool.and_eq_true, decide_eq_true_eq] at hc
  simp only [pyIntCore]
  rw [ndVal_of_ascii_digit c hc.1 hc.2]
  exact pyIntGo_of_digits rest (fun x hx => h x (by simp [hx])) _

theorem pyInt_of_digits (cnt : String) (hne : cnt.toList ≠ [])
    (hd : cnt.toList.all isDigitChar = true) :
    ∃ n : Nat, pyInt cnt = some (n : Int) := by
  have hall : ∀ c ∈ cnt.toList, isDigitChar c = true :=
    fun c hc => List.all_eq_true.mp hd c hc
  unfold pyInt
  rw [pyStrip_of_digits _ hall]
  rcases hcs : cnt.toList with _ | ⟨c, rest⟩
  · exact absurd hcs hne
  · have hc := hall c (by rw [hcs]; simp)
    simp only [isDigitChar, Bool.and_eq_true, decide_eq_true_eq] at hc
    obtain ⟨n, hn⟩ := pyIntCore_of_digits c rest
      (fun x hx => hall x (by rw [hcs]; exact hx))
    split
    · rename_i heq
      injection heq with h1 _
      rw [h1] at hc
      exact absurd hc (by decide)
    · rename_i heq
      injection heq with h1 _
      rw [h1] at hc
      exact absurd hc (by decide)
    · rw [hn]
      exact ⟨n, rfl⟩

theorem pyInt_nonneg_of_digits (cnt : String)
    (hd : cnt.toList.all isDigitChar = true) (c : Int)
    (h : pyInt cnt = some c) : 0 ≤ c := by
  have hall : ∀ x ∈ cnt.toList, isDigitChar x = true :=
    fun x hx => List.all_eq_true.mp hd x hx
  unfold pyInt at h
  rw [pyStrip_of_digits _ hall] at h
  rcases hcs : cnt.toList with _ | ⟨d, rest⟩
  · rw [hcs] at h
    simp [pyIntCore] at h
  · have hc := hall d (by rw [hcs]; simp)
    simp only [isDigitChar, Bool.and_eq_true, decide_eq_true_eq] at hc
    rw [hcs] at h
    split at h
    · rename_i heq
      injection heq with h1 _
      rw [h1] at hc
      exact absurd hc (by decide)
    · rename_i heq
      injection heq with h1 _
      rw [h1] at hc
      exact absurd hc (by decide)
    · rcases Option.map_eq_some'.mp h with ⟨n, hn1, hn2⟩
      subst hn2
      exact Int.ofNat_nonneg n

/-! ## Facts about the record scan of `check_pwned_api` -/

theorem scanHashes_aborts (sfx : String) (lines : List String)
    (h : scanAborts sfx lines = true) :
    scanHashes sfx lines = Except.error () := by
  induction lines with
  | nil => simp [scanAborts] at h
  | cons line rest ih =>
    rcases hs : splitChar ':' line with _ | ⟨a, _ | ⟨b, _ | ⟨c, tl⟩⟩⟩
    · simp [scanHashes, hs]
    · simp [scanHashes, hs]
    · simp only [scanAborts, hs] at h
      simp only [scanHashes, hs]
      by_cases hab : a = sfx
      · rw [if_pos hab] at h ⊢
        rw [Option.isNone_iff_eq_none.mp h]
      · rw [if_neg hab] at h ⊢
        exact ih h
    · simp [scanHashes, hs]

theorem scanHashes_found (sfx : String) (lines : List String) (c : Int)
    (h : scanHashes sfx lines = Except.ok (true, c)) :
    ∃ line ∈ lines, ∃ cnt, splitChar ':' line = [sfx, cnt] ∧
      pyInt cnt = some c := by
  induction lines with
  | nil => simp [scanHashes] at h
  | cons line rest ih =>
    rcases hs : splitChar ':' line with _ | ⟨a, _ | ⟨b, _ | ⟨x, tl⟩⟩⟩
    · simp [scanHashes, hs] at h
    · simp [scanHashes, hs] at h
    · simp only [scanHashes, hs] at h
      by_cases hab : a = sfx
      · rw [if_pos hab] at h
        rcases hp : pyInt b with _ | v
        · rw [hp] at h
          simp at h
        · rw [hp] at h
          simp only [Except.ok.injEq, Prod.mk.injEq] at h
          exact ⟨line, by simp, b, by rw [hs, hab], by rw [hp, h.2]⟩
      · rw [if_neg hab] at h
        obtain ⟨l, hl, cnt, h1, h2⟩ := ih h
        exact ⟨l, by simp [hl], cnt, h1, h2⟩
    · simp [scanHashes, hs] at h

theorem scanHashes_nomatch (sfx : String) (lines : List String)
    (hwf : ∀ line ∈ lines, ∃ a b, splitChar ':' line = [a, b])
    (hnm : hasMatchRecord sfx lines = false) :
    scanHashes sfx lines = Except.ok (false, 0) := by
  induction lines with
  | nil => rfl
  | cons line rest ih =>
    obtain ⟨a, b, hs⟩ := hwf line (by simp)
    simp only [hasMatchRecord, List.any_cons, Bool.or_eq_false_iff] at hnm
    rw [hs] at hnm
    have hab : ¬(a = sfx) := by
      intro he
      rw [he] at hnm
      simp at hnm
    simp only [scanHashes, hs]
    rw [if_neg hab]
    exact ih (fun l hl => hwf l (by simp [hl]))
      (by simp only [hasMatchRecord]; exact hnm.2)

theorem scanHashes_match (sfx : String) (lines : List String)
    (hwf : ∀ line ∈ lines, wellFormedRecord line = true)
    (hm : hasMatchRecord sfx lines = true) :
    ∃ cnt n, scanHashes sfx lines = Except.ok (true, n) ∧
      (∃ line ∈ lines, splitChar ':' line = [sfx, cnt]) ∧
      pyInt cnt = some n := by
  induction lines with
  | nil => simp [hasMatchRecord] at hm
  | cons line rest ih =>
    have hw := hwf line (by simp)
    unfold wellFormedRecord at hw
    rcases hs : splitChar ':' line with _ | ⟨a, _ | ⟨b, _ | ⟨x, tl⟩⟩⟩ <;>
      rw [hs] at hw
    · simp at hw
    · simp at hw
    · simp only [Bool.and_eq_true] at hw
      have hbne : b.toList ≠ [] := by
        intro he
        have hb := hw.1.2
        rw [Bool.not_eq_true'] at hb
        rw [he] at hb
        simp at hb
      by_cases hab : a = sfx
      · obtain ⟨n, hn⟩ := pyInt_of_digits b hbne hw.2
        refine ⟨b, (n : Int), ?_, ⟨line, by simp, by rw [hs, hab]⟩, hn⟩
        simp only [scanHashes, hs]
        rw [if_pos hab, hn]
      · have hm2 : hasMatchRecord sfx rest = true := by
          simp only [hasMatchRecord, List.any_cons, Bool.or_eq_true] at hm
          rcases hm with hm1 | hm1
          · rw [hs] at hm1
            simp at hm1
            exact absurd hm1 hab
          · simp only [hasMatchRecord]
            exact hm1
        obtain ⟨cnt, n, h1, h2, h3⟩ := ih (fun l hl => hwf l (by simp [hl])) hm2
        refine ⟨cnt, n, ?_, ?_, h3⟩
        · simp only [scanHashes, hs]
          rw [if_neg hab]
          exact h1
        · obtain ⟨l, hl, hsp⟩ := h2
          exact ⟨l, by simp [hl], hsp⟩
    · simp at hw

theorem check_eq_scan (password : String) (tr : String → HttpOutcome)
    (text : String)
    (hresp : tr (requestPath password) = HttpOutcome.success 200 text) :
    check_pwned_api password tr =
      scanHashes (hashSfx password) (pySplitlines text) := by
  unfold check_pwned_api
  rw [hresp]
  rfl

/-- Counterexample to claim C2 as stated: an HTTP 200 body whose second
record "BADLINE" has no colon separator makes the scan of
`check_pwned_api` fail tuple unpacking, so the `ValueError` propagates
(modelled as `Except.error ()`) instead of the record being skipped. -/
theorem C2_counterexample :
    check_pwned_api "password"
      (fun _ => HttpOutcome.success 200
        "0018A45C4D1DEF81644B54AB7F969B88D65:3\nBADLINE") =
      Except.error () := rfl

/-- Claim C2 as amended: an unparsable record in an HTTP 200 body — a line
without exactly one colon, or a matching record whose count field `int()`
rejects — reached before any matching record makes `check_pwned_api`
propagate the exception to its caller (`Except.error ()`); unparsable
records are not skipped, only two-field non-matching records are passed
over. -/
theorem C2_parse_error_propagates (password : String)
    (tr : String → HttpOutcome) (text : String)
    (hresp : tr (requestPath password) = HttpOutcome.success 200 text)
    (habort : scanAborts (hashSfx password) (pySplitlines text) = true) :
    check_pwned_api password tr = Except.error () := by
  rw [check_eq_scan password tr text hresp]
  exact scanHashes_aborts _ _ habort

/-- Witness for the amended C2 at the concrete password "abc" and the
one-line malformed body "BADLINE". -/
theorem C2_parse_error_propagates_witness :
    check_pwned_api "abc" (fun _ => HttpOutcome.success 200 "BADLINE") =
      Except.error () :=
  C2_parse_error_propagates "abc" (fun _ => HttpOutcome.success 200 "BADLINE")
    "BADLINE" rfl (by decide)

/-- Claim C4: a transport-level failure (`requests.RequestException`:
connection error or timeout) makes `check_pwned_api` return exactly
`(False, -1)` without raising, and any non-200 HTTP status yields the
non-raising result `(False, 0)` rather than aborting the overall check. -/
theorem C4_transport_failure (password : String) (tr : String → HttpOutcome) :
    (tr (requestPath password) = HttpOutcome.requestError →
      check_pwned_api password tr = Except.ok (false, -1)) ∧
    (∀ status text, ¬(status = 200) →
      tr (requestPath password) = HttpOutcome.success status text →
      check_pwned_api password tr = Except.ok (false, 0)) := by
  constructor
  · intro h
    unfold check_pwned_api
    rw [h]
  · intro status text hst h
    unfold check_pwned_api
    rw [h]
    simp only
    rw [if_neg hst]

/-- Witness for C4 at the concrete password "pw": a raising transport
yields `(False, -1)` and an HTTP 404 yields `(False, 0)`. -/
theorem C4_transport_failure_witness :
    check_pwned_api "pw" (fun _ => HttpOutcome.requestError) =
      Except.ok (false, -1) ∧
    check_pwned_api "pw" (fun _ => HttpOutcome.success 404 "") =
      Except.ok (false, 0) :=
  ⟨(C4_transport_failure "pw" (fun _ => HttpOutcome.requestError)).1 rfl,
   (C4_transport_failure "pw" (fun _ => HttpOutcome.success 404 "")).2 404 ""
     (by decide) rfl⟩

theorem wellFormedRecord_two_fields (line : String)
    (h : wellFormedRecord line = true) :
    ∃ a b, splitChar ':' line = [a, b] := by
  unfold wellFormedRecord at h
  rcases hs : splitChar ':' line with _ | ⟨a, _ | ⟨b, _ | ⟨x, tl⟩⟩⟩ <;>
    rw [hs] at h
  · simp at h
  · simp at h
  · exact ⟨a, b, rfl⟩
  · simp at h

/-- Claim C5: on an HTTP 200 response whose body is newline-separated
records of the shape `<35-hex-suffix>:<decimal-count>`, `check_pwned_api`
returns `(True, n)` with `n` the count of a record whose suffix equals the
local SHA-1 suffix when such a record exists, and `(False, 0)` when no
record's suffix matches. -/
theorem C5_response_parsing (password : String) (tr : String → HttpOutcome)
    (text : String)
    (hresp : tr (requestPath password) = HttpOutcome.success 200 text)
    (hwf : (pySplitlines text).all wellFormedRecord = true) :
    (hasMatchRecord (hashSfx password) (pySplitlines text) = true →
      ∃ cnt n, check_pwned_api password tr = Except.ok (true, n) ∧
        (∃ line ∈ pySplitlines text,
          splitChar ':' line = [hashSfx password, cnt]) ∧
        pyInt cnt = some n) ∧
    (hasMatchRecord (hashSfx password) (pySplitlines text) = false →
      check_pwned_api password tr = Except.ok (false, 0)) := by
  have hwfa : ∀ line ∈ pySplitlines text, wellFormedRecord line = true :=
    fun l hl => List.all_eq_true.mp hwf l hl
  constructor
  · intro hm
    obtain ⟨cnt, n, h1, h2, h3⟩ :=
      scanHashes_match (hashSfx password) (pySplitlines text) hwfa hm
    refine ⟨cnt, n, ?_, h2, h3⟩
    rw [check_eq_scan password tr text hresp]
    exact h1
  · intro hnm
    rw [check_eq_scan password tr text hresp]
    exact scanHashes_nomatch (hashSfx password) (pySplitlines text)
      (fun l hl => wellFormedRecord_two_fields l (hwfa l hl)) hnm

/-- Witness for C5 at the concrete password "password", whose SHA-1 suffix
is 1E4C9B93F3F0682250B6CF8331B7EE68FD8, against a one-record body with
count 3: the lookup returns `(True, 3)`. -/
theorem C5_response_parsing_witness :
    ∃ cnt n, check_pwned_api "password"
        (fun _ => HttpOutcome.success 200
          "1E4C9B93F3F0682250B6CF8331B7EE68FD8:3") =
        Except.ok (true, n) ∧
      (∃ line ∈ pySplitlines "1E4C9B93F3F0682250B6CF8331B7EE68FD8:3",
        splitChar ':' line = [hashSfx "password", cnt]) ∧
      pyInt cnt = some n :=
  (C5_response_parsing "password"
    (fun _ => HttpOutcome.success 200 "1E4C9B93F3F0682250B6CF8331B7EE68FD8:3")
    "1E4C9B93F3F0682250B6CF8331B7EE68FD8:3" rfl (by decide)).1 (by decide)

/-- Counterexample to claim C7 as stated: over all response bodies the
invariant fails — a matching record whose count field is "-5" parses to a
negative count, so `check_pwned_api` returns `(True, -5)`: a negative
`occurrenceCount` paired with `found = true`. -/
theorem C7_counterexample :
    check_pwned_api "password"
      (fun _ => HttpOutcome.success 200
        "1E4C9B93F3F0682250B6CF8331B7EE68FD8:-5") =
      Except.ok (true, -5) ∧
    (-5 : Int) < 0 ∧ true ≠ false :=
  ⟨rfl, by decide, by decide⟩

/-- Claim C7 as amended: over all passwords and failure modes, and all
HTTP bodies whose record count fields consist only of decimal digits (as
the breach corpus serves them), a returned `occurrenceCount < 0` implies
`found = false`; the -1 sentinel only ever accompanies `found = false`.
Only a body whose matching record carries an explicitly negative count
field can break the implication. -/
theorem C7_negative_count_sentinel (password : String)
    (tr : String → HttpOutcome)
    (hbody : ∀ status text,
      tr (requestPath password) = HttpOutcome.success status text →
      countFieldsDigits text = true)
    (found : Bool) (c : Int)
    (hres : check_pwned_api password tr = Except.ok (found, c))
    (hneg : c < 0) : found = false := by
  cases htr : tr (requestPath password) with
  | requestError =>
    unfold check_pwned_api at hres
    rw [htr] at hres
    simp only [Except.ok.injEq, Prod.mk.injEq] at hres
    exact hres.1.symm
  | success status text =>
    unfold check_pwned_api at hres
    rw [htr] at hres
    simp only at hres
    by_cases hst : status = 200
    · rw [if_pos hst] at hres
      cases found with
      | false => rfl
      | true =>
        obtain ⟨l, hl, cnt, hsp, hpi⟩ :=
          scanHashes_found (hashSfx password) (pySplitlines text) c hres
        have hd := hbody status text htr
        simp only [countFieldsDigits] at hd
        have hline := List.all_eq_true.mp hd l hl
        rw [hsp] at hline
        simp only at hline
        have h0 := pyInt_nonneg_of_digits cnt hline c hpi
        omega
    · rw [if_neg hst] at hres
      simp only [Except.ok.injEq, Prod.mk.injEq] at hres
      exact hres.1.symm

/-- Witness for the amended C7 at the concrete password "pw2" and a
raising transport: the result is `(False, -1)` and the implication is
discharged at `found = false`, `c = -1`. -/
theorem C7_negative_count_sentinel_witness : false = false :=
  C7_negative_count_sentinel "pw2" (fun _ => HttpOutcome.requestError)
    (fun status text h => HttpOutcome.noConfusion h) false (-1) rfl
    (by decide)

/-! ## Shape of the transmitted hash head -/

theorem toBytesBE_length (k n : Nat) : (toBytesBE k n).length = k := by
  induction k generalizing n with
  | zero => rfl
  | succ k ih => simp [toBytesBE, ih]

theorem sha1Bytes_length (msg : List Nat) : (sha1Bytes msg).length = 20 := by
  unfold sha1Bytes
  obtain ⟨a, b, c, d, e⟩ :=
    (toChunks (sha1Pad msg)).foldl processChunk sha1Init
  simp [toBytesBE_length]

theorem catMap_byteHex_length (bs : List Nat) :
    (catMap byteHex bs).length = 2 * bs.length := by
  induction bs with
  | nil => rfl
  | cons b bs ih => simp [catMap, byteHex, ih]; omega

theorem string_mk_length (l : List Char) : (String.mk l).length = l.length := rfl

theorem sha1HexUpper_length (s : String) : (sha1HexUpper s).length = 40 := by
  unfold sha1HexUpper
  rw [string_mk_length, catMap_byteHex_length, sha1Bytes_length]

theorem hashPfx_length (p : String) : (hashPfx p).length = 5 := by
  unfold hashPfx strTake
  rw [string_mk_length, List.length_take]
  have h : (sha1HexUpper p).toList.length = 40 := sha1HexUpper_length p
  omega

theorem hexDigit_mem (n : Nat) : hexDigit n ∈ hexChars := by
  unfold hexDigit
  have h : n % 16 < 16 := Nat.mod_lt _ (by norm_num)
  revert h
  generalize n % 16 = m
  intro h
  interval_cases m <;> decide

theorem catMap_byteHex_mem (bs : List Nat) (c : Char)
    (h : c ∈ catMap byteHex bs) : c ∈ hexChars := by
  induction bs with
  | nil => simp [catMap] at h
  | cons b bs ih =>
    rw [show catMap byteHex (b :: bs) = byteHex b ++ catMap byteHex bs
      from rfl] at h
    rcases List.mem_append.mp h with h | h
    · rcases List.mem_cons.mp h with h | h
      · rw [h]; exact hexDigit_mem _
      · rcases List.mem_cons.mp h with h | h
        · rw [h]; exact hexDigit_mem _
        · exact absurd h (List.not_mem_nil c)
    · exact ih h

theorem hashPfx_chars (p : String) (c : Char) (h : c ∈ (hashPfx p).toList) :
    c ∈ hexChars := by
  unfold hashPfx strTake at h
  have h2 : c ∈ (sha1HexUpper p).toList := List.take_subset _ _ h
  unfold sha1HexUpper at h2
  exact catMap_byteHex_mem _ c h2

/-- Claim C6: for every password, the URL handed to the transport is
exactly the endpoint base followed by the first 5 characters of the
uppercase hexadecimal SHA-1 digest of the password's UTF-8 encoding —
5 uppercase-hexadecimal characters; it is the same for any two passwords
whose 5-character heads agree (so nothing from the 35-character suffix or
the plaintext is transmitted), and the result of `check_pwned_api`
depends on the transport only through its answer at that one URL. -/
theorem C6_k_anonymity (p : String) :
    requestPath p = api_url ++ hashPfx p ∧
    (hashPfx p).length = 5 ∧
    (∀ c ∈ (hashPfx p).toList, c ∈ hexChars) ∧
    (∀ q : String, hashPfx q = hashPfx p → requestPath q = requestPath p) ∧
    (∀ tr1 tr2 : String → HttpOutcome,
      tr1 (requestPath p) = tr2 (requestPath p) →
      check_pwned_api p tr1 = check_pwned_api p tr2) := by
  refine ⟨rfl, hashPfx_length p, fun c hc => hashPfx_chars p c hc, ?_, ?_⟩
  · intro q h
    unfold requestPath
    rw [h]
  · intro tr1 tr2 h
    unfold check_pwned_api
    rw [h]

/-- Witness for C6 at the concrete password "abc": the path equation and
head length evaluate, and two transports agreeing at the requested path
give equal results. -/
theorem C6_k_anonymity_witness :
    requestPath "abc" = api_url ++ hashPfx "abc" ∧
    (hashPfx "abc").length = 5 ∧
    check_pwned_api "abc" (fun _ => HttpOutcome.requestError) =
      check_pwned_api "abc"
        (fun s => if s = requestPath "abc" then HttpOutcome.requestError
          else HttpOutcome.success 200 "") :=
  ⟨(C6_k_anonymity "abc").1, (C6_k_anonymity "abc").2.1,
   (C6_k_anonymity "abc").2.2.2.2 (fun _ => HttpOutcome.requestError)
     (fun s => if s = requestPath "abc" then HttpOutcome.requestError
       else HttpOutcome.success 200 "")
     (by simp)⟩

/-- Claim C10: letter detection in `calculate_password_strength` is
ASCII-only while digit detection is Unicode-aware — a password all of
whose characters fall outside `[a-zA-Z]` (for instance Cyrillic letters)
earns 0 points from the case-mixing criterion and produces no
case-related finding, whereas any Unicode decimal digit, including a
non-ASCII one, still earns the +1 digit point. -/
theorem C10_ascii_letters_unicode_digits :
    (∀ p : String, (∀ c ∈ p.toList, isLetterChar c = false) →
      casePoints p = 0 ∧ caseFeedback p = []) ∧
    (∀ p : String, (∃ c ∈ p.toList, isNd c = true ∧ 128 ≤ c.toNat) →
      digitPoints p = 1) := by
  constructor
  · intro p hp
    have hletter : hasLetter p = false := by
      unfold hasLetter
      rw [List.any_eq_false]
      intro c hc
      rw [hp c hc]
      exact Bool.false_ne_true
    have hlow : hasLower p = false := by
      unfold hasLower
      rw [List.any_eq_false]
      intro c hc
      have := hp c hc
      unfold isLetterChar at this
      rcases Bool.or_eq_false_iff.mp this with ⟨h1, _⟩
      rw [h1]
      exact Bool.false_ne_true
    constructor
    · unfold casePoints
      rw [hlow]
      simp [hletter]
    · unfold caseFeedback
      rw [hlow]
      simp [hletter]
  · intro p hp
    obtain ⟨c, hc, hnd, _⟩ := hp
    have hd : hasDigit p = true := by
      unfold hasDigit
      rw [List.any_eq_true]
      exact ⟨c, hc, hnd⟩
    unfold digitPoints
    rw [if_pos hd]

/-- Witness for C10 at the concrete password "пароль٣" (six Cyrillic
letters and the Arabic-Indic digit three): no case points, no case
finding, and the digit point is earned. -/
theorem C10_ascii_letters_unicode_digits_witness :
    casePoints "пароль٣" = 0 ∧ caseFeedback "пароль٣" = [] ∧
      digitPoints "пароль٣" = 1 :=
  ⟨(C10_ascii_letters_unicode_digits.1 "пароль٣" (by decide)).1,
   (C10_ascii_letters_unicode_digits.1 "пароль٣" (by decide)).2,
   C10_ascii_letters_unicode_digits.2 "пароль٣"
     ⟨'٣', by decide, by decide, by decide⟩⟩
